import Mathlib

/-!
Verification development for the jaxe filter-expression core
(`src/parser.rs`, `src/filters.rs`): the expression AST, the
evaluator with its path-descent and coercion rules, the nom-style
parser, and the filter pipeline.

Conventions of the embedding:
* `serde_json::Value` becomes the inductive `Value`; JSON objects are
  association lists looked up by first match (serde maps have unique
  keys), numbers are modelled as integers carrying their decimal
  text via `toString` (the claims under study never exercise
  floating-point numbers).
* Rust `Result` becomes `Except String`.
* Parser input is a `List Char`; a parser returns `none` on a
  recoverable nom error and `some (rest, value)` on success.
-/

/-- serde_json `Value`. -/
inductive Value where
  | null
  | bool (b : Bool)
  | num (n : Int)
  | str (s : String)
  | arr (elems : List Value)
  | obj (fields : List (String × Value))

/-- Source `EPath`: a parsed dotted field path (`struct EPath(Vec<String>)`). -/
structure EPath where
  segs : List String

/-- The expression AST (`enum Exp`). -/
inductive Exp where
  | Equals (p : EPath) (v : String)
  | NotEquals (p : EPath) (v : String)
  | Exists (p : EPath)
  | Not (e : Exp)
  | And (es : List Exp)
  | Or (es : List Exp)
  | Contains (p : EPath) (v : String)

/-! ## Path descent (`descend_to` and `serde_json::Value::pointer`) -/

/-- Rust `str::split('/')` on a character list: splits at every `'/'`,
keeping empty pieces (so `"/a"` splits to `["", "a"]`). -/
def splitSlash : List Char → List (List Char)
  | [] => [[]]
  | c :: rest =>
    if c = '/' then [] :: splitSlash rest
    else
      match splitSlash rest with
      | [] => [[c]]
      | t :: ts => (c :: t) :: ts

/-- Rust `Vec::join("/")` on the path segments. -/
def joinSlash : List String → List Char
  | [] => []
  | [s] => s.data
  | s :: rest => s.data ++ '/' :: joinSlash rest

/-- Rust `str::replace` of the two-character pattern `[a, b]` by the
single character `c`, scanning left to right without overlap (used for
the JSON-pointer unescapes `~1 -> /` and `~0 -> ~`). -/
def replace2 (a b c : Char) : List Char → List Char
  | [] => []
  | [x] => [x]
  | x :: y :: rest =>
    if x = a ∧ y = b then c :: replace2 a b c rest
    else x :: replace2 a b c (y :: rest)

/-- JSON-pointer token unescaping: `token.replace("~1", "/").replace("~0", "~")`. -/
def unescapeTok (t : List Char) : List Char :=
  replace2 '~' '0' '~' (replace2 '~' '1' '/' t)

/-- Digits-only `str::parse::<usize>`: all characters are decimal digits
and the string is non-empty.  (Array indices beyond any actual array
length resolve to nothing either way, so the unbounded `Nat` is
observationally equivalent to `usize` here.) -/
def parseNatDigits (s : List Char) : Option Nat :=
  if s ≠ [] ∧ s.all Char.isDigit then
    some (s.foldl (fun acc c => acc * 10 + (c.toNat - 48)) 0)
  else none

/-- serde_json's private `parse_index`: rejects a leading `'+'` and
leading zeros, then parses as `usize`. -/
def parse_index (s : List Char) : Option Nat :=
  if s.head? = some '+' ∨ (s.head? = some '0' ∧ s.length ≠ 1) then none
  else parseNatDigits s

/-- First-match association-list lookup of an object key against a
pointer token. -/
def lookupTok : List (String × Value) → List Char → Option Value
  | [], _ => none
  | (k, v) :: rest, tok => if k.data = tok then some v else lookupTok rest tok

/-- The `try_fold` inside `Value::pointer`: descend one token at a time;
objects are keyed verbatim, arrays by `parse_index`, scalars stop the
descent. -/
def pointerGo : List (List Char) → Value → Option Value
  | [], v => some v
  | tok :: rest, v =>
    match v with
    | .obj fields =>
      match lookupTok fields tok with
      | some v' => pointerGo rest v'
      | none => none
    | .arr elems =>
      match parse_index tok with
      | some idx =>
        match elems[idx]? with
        | some v' => pointerGo rest v'
        | none => none
      | none => none
    | _ => none

/-- serde_json `Value::pointer`. -/
def pointer (ptr : List Char) (v : Value) : Option Value :=
  if ptr.isEmpty then some v
  else if ptr.head? ≠ some '/' then none
  else pointerGo (((splitSlash ptr).drop 1).map unescapeTok) v

/-- Source `descend_to`: join the path segments with `/`, prepend `/`, resolve
with `Value::pointer`. -/
def descend_to (path : EPath) (target : Value) : Option Value :=
  pointer ('/' :: joinSlash path.segs) target

/-! ## Scalar coercion and evaluation -/

/-- Source `string_value`: coerce a scalar to text (`bool`/`string`/`number`),
refuse everything else. -/
def string_value : Value → Option String
  | .bool b => some (if b then "true" else "false")
  | .str s => some s
  | .num n => some (toString n)
  | _ => none

/-- serde_json `Value::as_bool`. -/
def as_bool : Value → Option Bool
  | .bool b => some b
  | _ => none

/-- Source `eval_equals`: descend (absent becomes `Null`), coerce, compare text. -/
def eval_equals (path : EPath) (value : String) (target : Value) : Value :=
  let path_value := (descend_to path target).getD .null
  match string_value path_value with
  | some p => if p = value then .bool true else .bool false
  | none => .bool false

/-- Source `eval_not_equals`: `Bool(true)` test on `eval_equals`, flipped. -/
def eval_not_equals (path : EPath) (value : String) (target : Value) : Value :=
  match eval_equals path value target with
  | .bool true => .bool false
  | _ => .bool true

/-- Source `eval_exists`: `is_some` on the descent. -/
def eval_exists (path : EPath) (target : Value) : Value :=
  if (descend_to path target).isSome then .bool true else .bool false

/-- Character-list prefix test (Rust slice `starts_with`). -/
def isPreOf : List Char → List Char → Bool
  | [], _ => true
  | _ :: _, [] => false
  | a :: as, b :: bs => a = b && isPreOf as bs

/-- Rust `str::contains` with a string pattern: contiguous substring
occurrence (the empty pattern occurs in every string). -/
def containsSub (needle : List Char) : List Char → Bool
  | [] => needle.isEmpty
  | c :: rest => isPreOf needle (c :: rest) || containsSub needle rest

/-- Source `eval_contains`: descend, coerce, substring test. -/
def eval_contains (path : EPath) (val : String) (target : Value) : Value :=
  let path_value := (descend_to path target).getD .null
  match string_value path_value with
  | some p => if containsSub val.data p.data then .bool true else .bool false
  | none => .bool false

mutual

/-- Source `eval`: dispatch on the expression variant.  The `Not` branch
carries the body of the source's `eval_not` inline (the standalone
`eval_not` wrapper is defined right below the mutual block, so that
recursion stays structural). -/
def eval : Exp → Value → Value
  | .Contains path val, target => eval_contains path val target
  | .Or conditions, target => eval_or conditions target
  | .And conditions, target => eval_and conditions target
  | .Not e, target =>
    if (as_bool (eval e target)).getD false = true then .bool false else .bool true
  | .Exists path, target => eval_exists path target
  | .Equals path value, target => eval_equals path value target
  | .NotEquals path value, target => eval_not_equals path value target
  termination_by structural e => e

/-- Source `eval_and`: the source's left-to-right loop returning `Bool(false)`
at the first falsy operand. -/
def eval_and (conditions : List Exp) (target : Value) : Value :=
  match conditions with
  | [] => .bool true
  | cond :: rest =>
    if (as_bool (eval cond target)).getD false = false then .bool false
    else eval_and rest target
  termination_by structural conditions

/-- Source `eval_or`: the source's left-to-right loop returning `Bool(true)` at
the first truthy operand. -/
def eval_or (conditions : List Exp) (target : Value) : Value :=
  match conditions with
  | [] => .bool false
  | cond :: rest =>
    if (as_bool (eval cond target)).getD false then .bool true
    else eval_or rest target
  termination_by structural conditions

end

/-- Source `eval_not`: `as_bool().unwrap_or(false)` on the child, flipped.
Definitionally equal to the `Not` branch of `eval`. -/
def eval_not (e : Exp) (target : Value) : Value :=
  if (as_bool (eval e target)).getD false = true then .bool false else .bool true

/-- The public `filter`: evaluate, extract a boolean with default
`false`, wrap in `Ok`. -/
def filter (exp : Exp) (target : Value) : Except String Bool :=
  .ok ((as_bool (eval exp target)).getD false)

/-! ## The filter pipeline (`src/filters.rs`) -/

/-- A compiled predicate (the object behind the `Filter` trait; the
jaxe backend's predicates are pure, so the `&mut self` receiver carries
no state here). -/
def Pred : Type := Value → Except String Bool

/-- Source `JaxeFilter::apply`: delegate to `parser::filter`. -/
def jaxeFilter (e : Exp) : Pred := fun line => filter e line

/-- Source `Filters::apply`: run the predicates in declaration order,
propagating errors with `?`, answering `Ok(false)` at the first
rejection and `Ok(true)` if every predicate accepts. -/
def applyFilters : List Pred → Value → Except String Bool
  | [], _ => .ok true
  | f :: rest, line =>
    match f line with
    | .error e => .error e
    | .ok res => if ¬ res then .ok false else applyFilters rest line

/-! ## The parser (`src/parser.rs`, nom combinators)

A parser takes the remaining input and returns `none` on a recoverable
error, or the rest of the input with the parsed value.  `LocatedSpan`
positions carry no semantic weight, so the input is a bare `List Char`.
-/

def Parser (α : Type) : Type := List Char → Option (List Char × α)

/-- nom `tag`: match a literal string at the head of the input. -/
def tag (t : List Char) : Parser (List Char) := fun i =>
  if isPreOf t i then some (i.drop t.length, t) else none

/-- nom `char`: match one literal character. -/
def charP (c : Char) : Parser Char := fun i =>
  match i with
  | c2 :: rest => if c2 = c then some (rest, c) else none
  | [] => none

/-- nom `multispace0`: consume any run of spaces, tabs, carriage
returns and line feeds; never fails. -/
def multispace0 (i : List Char) : List Char :=
  i.dropWhile fun c => c = ' ' ∨ c = '\t' ∨ c = '\r' ∨ c = '\n'

/-- Rust `char::is_whitespace` (the Unicode `White_Space` characters). -/
def rustIsWhitespace (c : Char) : Bool :=
  c ∈ ['\t', '\n', '\x0b', '\x0c', '\r', ' ', '\x85', '\xa0',
       '\u1680', '\u2000', '\u2001', '\u2002', '\u2003', '\u2004',
       '\u2005', '\u2006', '\u2007', '\u2008', '\u2009', '\u200a',
       '\u2028', '\u2029', '\u202f', '\u205f', '\u3000']

/-- The segment alphabet: ASCII alphanumerics, `_` and `-`
(nom `AsChar::is_alphanum` is ASCII-only). -/
def isSegChar (c : Char) : Bool := c.isAlphanum || c = '_' || c = '-'

/-- Source `path_segment`: `split_at_position_complete` on the segment
alphabet — take the maximal (possibly empty) run; never fails. -/
def path_segment : Parser String := fun i =>
  let m := i.takeWhile isSegChar
  some (i.drop m.length, String.mk m)

/-- Source `unquoted_value`: maximal (possibly empty) run of characters that
are not whitespace, `,`, `)` or a double quote; never fails. -/
def unquoted_value : Parser String := fun i =>
  let m := i.takeWhile fun c => ¬ (rustIsWhitespace c ∨ c = ',' ∨ c = ')' ∨ c = '"')
  some (i.drop m.length, String.mk m)

/-- Source `end_quoted_string`: everything up to (not including) the next
double quote; never fails. -/
def end_quoted_string : Parser String := fun i =>
  let m := i.takeWhile fun c => c ≠ '"'
  some (i.drop m.length, String.mk m)

/-- Source `value`: quoted form first, bare token as fallback. -/
def valueP : Parser String := fun i =>
  match charP '"' i with
  | some (i1, _) =>
    match end_quoted_string i1 with
    | some (i2, s) =>
      match charP '"' i2 with
      | some (i3, _) => some (i3, s)
      | none => unquoted_value i
    | none => unquoted_value i
  | none => unquoted_value i

/-- The repeat-with-separator loop of nom `separated_list1`,
including its stuck-separator guard (a separator that consumes nothing
makes the whole list parser fail).  The loop advances at least one
character per iteration, so fuel `|input| + 1` never runs out. -/
def sepLoop (sep : Parser Unit) (f : Parser α) :
    Nat → List Char → List α → Option (List Char × List α)
  | 0, _, _ => none
  | fuel + 1, i, acc =>
    match sep i with
    | none => some (i, acc.reverse)
    | some (i1, _) =>
      if i1.length = i.length then none
      else
        match f i1 with
        | none => some (i, acc.reverse)
        | some (i2, x) => sepLoop sep f fuel i2 (x :: acc)

/-- nom `separated_list1`: one element, then separator-prefixed
repetitions. -/
def separated_list1 (sep : Parser Unit) (f : Parser α) : Parser (List α) := fun i =>
  match f i with
  | none => none
  | some (i1, x) => sepLoop sep f (i1.length + 1) i1 [x]

/-- Grammar rule `path := segment ("." segment)*`. -/
def pathP : Parser EPath := fun i =>
  match separated_list1 (fun j => (tag ['.'] j).map fun r => (r.1, ())) path_segment i with
  | none => none
  | some (rest, segs) => some (rest, EPath.mk segs)

/-- Source `comma`: optional whitespace, a comma, optional whitespace. -/
def commaP : Parser Unit := fun i =>
  match tag [','] (multispace0 i) with
  | none => none
  | some (i1, _) => some (multispace0 i1, ())

/-- Source `operation_equals`: `path ws? "==" ws? value`. -/
def operation_equals : Parser Exp := fun i =>
  match pathP i with
  | none => none
  | some (i1, p) =>
    match tag ['=', '='] (multispace0 i1) with
    | none => none
    | some (i2, _) =>
      match valueP (multispace0 i2) with
      | none => none
      | some (i3, v) => some (i3, .Equals p v)

/-- Source `operation_not_equals`: `path ws? "!=" ws? value`. -/
def operation_not_equals : Parser Exp := fun i =>
  match pathP i with
  | none => none
  | some (i1, p) =>
    match tag ['!', '='] (multispace0 i1) with
    | none => none
    | some (i2, _) =>
      match valueP (multispace0 i2) with
      | none => none
      | some (i3, v) => some (i3, .NotEquals p v)

/-- Source `operation`: try not-equals first, fall back to equals. -/
def operationP : Parser Exp := fun i =>
  match operation_not_equals i with
  | some r => some r
  | none => operation_equals i

/-- Grammar rule `exists := "exists" "(" path ")"`. -/
def existsP : Parser Exp := fun i =>
  match tag ['e', 'x', 'i', 's', 't', 's'] i with
  | none => none
  | some (i1, _) =>
    match tag ['('] i1 with
    | none => none
    | some (i2, _) =>
      match pathP i2 with
      | none => none
      | some (i3, p) =>
        match tag [')'] i3 with
        | none => none
        | some (i4, _) => some (i4, .Exists p)

/-- Grammar rule `contains := "contains" "(" path comma value ")"`. -/
def containsP : Parser Exp := fun i =>
  match tag ['c', 'o', 'n', 't', 'a', 'i', 'n', 's'] i with
  | none => none
  | some (i1, _) =>
    match tag ['('] i1 with
    | none => none
    | some (i2, _) =>
      match pathP i2 with
      | none => none
      | some (i3, p) =>
        match commaP i3 with
        | none => none
        | some (i4, _) =>
          match valueP i4 with
          | none => none
          | some (i5, v) =>
            match tag [')'] i5 with
            | none => none
            | some (i6, _) => some (i6, .Contains p v)

/-- One unrolling of the `not` rule, parametric in the parser used for
the inner expression: `"not" ws? "(" expr ")"` (the source places a
`multispace0` between the keyword and the parenthesis). -/
def notStep (rec : Parser Exp) : Parser Exp := fun i =>
  match tag ['n', 'o', 't'] i with
  | none => none
  | some (i1, _) =>
    match tag ['('] (multispace0 i1) with
    | none => none
    | some (i2, _) =>
      match rec i2 with
      | none => none
      | some (i3, e) =>
        match tag [')'] i3 with
        | none => none
        | some (i4, _) => some (i4, .Not e)

/-- One unrolling of the `and` rule: `"and" "(" expr ("," expr)* ")"`. -/
def andStep (rec : Parser Exp) : Parser Exp := fun i =>
  match tag ['a', 'n', 'd'] i with
  | none => none
  | some (i1, _) =>
    match tag ['('] i1 with
    | none => none
    | some (i2, _) =>
      match separated_list1 commaP rec i2 with
      | none => none
      | some (i3, es) =>
        match tag [')'] i3 with
        | none => none
        | some (i4, _) => some (i4, .And es)

/-- One unrolling of the `or` rule: `"or" "(" expr ("," expr)* ")"`. -/
def orStep (rec : Parser Exp) : Parser Exp := fun i =>
  match tag ['o', 'r'] i with
  | none => none
  | some (i1, _) =>
    match tag ['('] i1 with
    | none => none
    | some (i2, _) =>
      match separated_list1 commaP rec i2 with
      | none => none
      | some (i3, es) =>
        match tag [')'] i3 with
        | none => none
        | some (i4, _) => some (i4, .Or es)

/-- One unrolling of `exp`: the nom `alt` over
`(or, and, not, contains, exists, operation)` in source order, with the
recursive positions abstracted. -/
def expStep (rec : Parser Exp) : Parser Exp := fun i =>
  match orStep rec i with
  | some r => some r
  | none =>
    match andStep rec i with
    | some r => some r
    | none =>
      match notStep rec i with
      | some r => some r
      | none =>
        match containsP i with
        | some r => some r
        | none =>
          match existsP i with
          | some r => some r
          | none => operationP i

/-- The `exp` grammar rule, closed by fuel over the nesting depth.
Every nesting level of the grammar consumes at least three characters
before recursing, so fuel `|input| + 1` (used by `parse`) never runs
out on any input. -/
def expP : Nat → Parser Exp
  | 0 => fun _ => none
  | fuel + 1 => expStep (expP fuel)

/-- The top-level `parse`: run `exp` and demand that the whole input
was consumed. -/
def parse (input : String) : Except String Exp :=
  match expP (input.length + 1) input.data with
  | none => .error "Could not parse filter"
  | some (rest, op) =>
    if rest.length ≠ 0 then .error "Could not parse the complete filter"
    else .ok op

/-- Source `Filters::add_filters`: compile each filter source with the
core parser into a jaxe predicate (the source unwraps parse failures at
startup; here they propagate as configuration-time errors). -/
def add_filters (sources : List String) : Except String (List Pred) :=
  sources.mapM fun f => (parse f).map jaxeFilter

/-! ## Literal scenarios from the design document -/

/-- Scenario check: numeric coercion to text for equality. -/
theorem scenario_numeric_equality :
    filter (.Equals ⟨["mykey0", "otherkey1"]⟩ "1")
      (.obj [("mykey0", .obj [("otherkey1", .num 1)])]) = .ok true := rfl

/-- Scenario check: numeric coercion then substring test. -/
theorem scenario_contains_number :
    filter (.Contains ⟨["mykey0", "randomkey"]⟩ "11")
      (.obj [("mykey0", .obj [("randomkey", .num 1111)])]) = .ok true := rfl

/-- Scenario check: a quoted literal preserves parentheses that would
otherwise terminate parsing. -/
theorem scenario_quoted_value :
    parse "contains(mykey, \"some()\")" = .ok (.Contains ⟨["mykey"]⟩ "some()") := rfl

/-- Scenario check: the nested combinator source of the design
document parses to the expected tree and accepts the sample record. -/
theorem scenario_nested_combinators :
    parse "and(not(mykey0.randomkey == something), mykey0.randomkey != somethingelse)"
      = .ok (.And [.Not (.Equals ⟨["mykey0", "randomkey"]⟩ "something"),
                   .NotEquals ⟨["mykey0", "randomkey"]⟩ "somethingelse"]) ∧
    filter (.And [.Not (.Equals ⟨["mykey0", "randomkey"]⟩ "something"),
                  .NotEquals ⟨["mykey0", "randomkey"]⟩ "somethingelse"])
      (.obj [("mykey0", .obj [("randomkey", .str "myval")])]) = .ok true := ⟨rfl, rfl⟩

/-- Scenario check: an unclosed source is a parse-time error. -/
theorem scenario_unclosed_source : (parse "not_closed(").isOk = false := rfl

/-! ## Helper lemmas -/

theorem eval_equals_isBool (p : EPath) (v : String) (t : Value) :
    ∃ b, eval_equals p v t = .bool b := by
  unfold eval_equals
  cases h : string_value ((descend_to p t).getD .null) with
  | none => exact ⟨false, by simp [h]⟩
  | some s =>
    by_cases hv : s = v
    · exact ⟨true, by simp [h, hv]⟩
    · exact ⟨false, by simp [h, hv]⟩

theorem eval_and_isBool (cs : List Exp) (t : Value) :
    ∃ b, eval_and cs t = .bool b := by
  induction cs with
  | nil => exact ⟨true, rfl⟩
  | cons c rest ih =>
    rw [eval_and]
    by_cases h : (as_bool (eval c t)).getD false = false
    · exact ⟨false, by simp [h]⟩
    · obtain ⟨b, hb⟩ := ih
      exact ⟨b, by simp [h, hb]⟩

theorem eval_or_isBool (cs : List Exp) (t : Value) :
    ∃ b, eval_or cs t = .bool b := by
  induction cs with
  | nil => exact ⟨false, rfl⟩
  | cons c rest ih =>
    rw [eval_or]
    by_cases h : ((as_bool (eval c t)).getD false : Bool)
    · exact ⟨true, by simp [h]⟩
    · obtain ⟨b, hb⟩ := ih
      exact ⟨b, by simp [h, hb]⟩

theorem eval_isBool (e : Exp) (t : Value) : ∃ b, eval e t = .bool b := by
  cases e with
  | Equals p v => exact eval_equals_isBool p v t
  | NotEquals p v =>
    rw [eval, eval_not_equals]
    cases eval_equals p v t with
    | bool b => cases b <;> simp
    | _ => simp
  | Exists p =>
    rw [eval, eval_exists]
    by_cases h : (descend_to p t).isSome <;> simp [h]
  | Not e =>
    rw [eval]
    by_cases h : (as_bool (eval e t)).getD false = true <;> simp [h]
  | And cs => rw [eval]; exact eval_and_isBool cs t
  | Or cs => rw [eval]; exact eval_or_isBool cs t
  | Contains p v =>
    rw [eval, eval_contains]
    cases string_value ((descend_to p t).getD .null) with
    | none => simp
    | some s => by_cases h : containsSub v.data s.data <;> simp [h]

/-! ## Claim theorems (evaluator side) -/

/-- Claim C1: evaluation is total and never fails — `filter` always
returns `Ok` of a boolean for every expression and record, and a
failed path descent is absorbed into `false` by `eval_equals`
(and hence into `true` by `eval_not_equals`), not raised as an error. -/
theorem filter_total_and_failures_absorbed :
    (∀ (e : Exp) (t : Value), ∃ b : Bool, filter e t = .ok b) ∧
    (∀ (p : EPath) (v : String) (t : Value), descend_to p t = none →
      eval_equals p v t = .bool false ∧ eval_not_equals p v t = .bool true) := by
  constructor
  · intro e t
    exact ⟨(as_bool (eval e t)).getD false, rfl⟩
  · intro p v t h
    have he : eval_equals p v t = .bool false := by
      unfold eval_equals
      rw [h]
      rfl
    refine ⟨he, ?_⟩
    rw [eval_not_equals, he]

/-- Witness for C1 at a concrete absent path. -/
theorem filter_total_and_failures_absorbed_witness :
    eval_equals ⟨["missing"]⟩ "x" (.obj [("k", .str "v")]) = .bool false ∧
    eval_not_equals ⟨["missing"]⟩ "x" (.obj [("k", .str "v")]) = .bool true :=
  filter_total_and_failures_absorbed.2 ⟨["missing"]⟩ "x" (.obj [("k", .str "v")]) rfl

/-- Claim C2: for every path, literal and record, `NotEquals` evaluates
to exactly the boolean negation of `Equals`. -/
theorem not_equals_negates_equals (p : EPath) (v : String) (t : Value) :
    ∃ b : Bool, eval_equals p v t = .bool b ∧ eval_not_equals p v t = .bool !b := by
  obtain ⟨b, hb⟩ := eval_equals_isBool p v t
  refine ⟨b, hb, ?_⟩
  rw [eval_not_equals, hb]
  cases b <;> rfl

/-- Witness for C2 at a concrete path, literal and record. -/
theorem not_equals_negates_equals_witness :
    ∃ b : Bool, eval_equals ⟨["k"]⟩ "v" (.obj [("k", .str "v")]) = .bool b ∧
      eval_not_equals ⟨["k"]⟩ "v" (.obj [("k", .str "v")]) = .bool !b :=
  not_equals_negates_equals ⟨["k"]⟩ "v" (.obj [("k", .str "v")])

/-- Claim C4: `Exists(p)` evaluates `true` exactly when the descent
resolves to some value (an explicit null counts), and `false` exactly
when it is undefined; shown together with both concrete cases. -/
theorem exists_iff_descend_defined :
    (∀ (p : EPath) (t : Value),
      (eval_exists p t = .bool true ↔ ∃ v, descend_to p t = some v) ∧
      (eval_exists p t = .bool false ↔ descend_to p t = none)) ∧
    eval_exists ⟨["k"]⟩ (.obj [("k", .null)]) = .bool true ∧
    eval_exists ⟨["k"]⟩ (.obj []) = .bool false := by
  refine ⟨?_, rfl, rfl⟩
  intro p t
  unfold eval_exists
  cases h : descend_to p t <;> simp [h]

/-- Witness for C4 at a concrete path and record. -/
theorem exists_iff_descend_defined_witness :
    (eval_exists ⟨["a"]⟩ (.obj [("a", .num 3)]) = .bool true ↔
      ∃ v, descend_to ⟨["a"]⟩ (.obj [("a", .num 3)]) = some v) ∧
    (eval_exists ⟨["a"]⟩ (.obj [("a", .num 3)]) = .bool false ↔
      descend_to ⟨["a"]⟩ (.obj [("a", .num 3)]) = none) :=
  exists_iff_descend_defined.1 ⟨["a"]⟩ (.obj [("a", .num 3)])

/-- Claim C10: `eval` only ever produces a JSON boolean, so the
`as_bool` extraction in `filter` never falls back to its default. -/
theorem eval_always_boolean (e : Exp) (t : Value) :
    ∃ b : Bool, eval e t = .bool b ∧ as_bool (eval e t) = some b ∧
      filter e t = .ok b := by
  obtain ⟨b, hb⟩ := eval_isBool e t
  exact ⟨b, hb, by rw [hb]; rfl, by rw [filter, hb]; rfl⟩

/-- Witness for C10 at a concrete expression and record. -/
theorem eval_always_boolean_witness :
    ∃ b : Bool, eval (.Not (.Exists ⟨["q"]⟩)) (.obj []) = .bool b ∧
      as_bool (eval (.Not (.Exists ⟨["q"]⟩)) (.obj [])) = some b ∧
      filter (.Not (.Exists ⟨["q"]⟩)) (.obj []) = .ok b :=
  eval_always_boolean (.Not (.Exists ⟨["q"]⟩)) (.obj [])

/-- Claim C5: scalar coercion maps booleans to `"true"`/`"false"`,
strings to themselves and numbers to their decimal text, refuses
objects, arrays and null, and an incoercible resolved value makes both
`Equals` and `Contains` evaluate to `false`. -/
theorem string_value_coercion_spec :
    string_value (.bool true) = some "true" ∧
    string_value (.bool false) = some "false" ∧
    (∀ s, string_value (.str s) = some s) ∧
    (∀ n : Int, string_value (.num n) = some (toString n)) ∧
    string_value .null = none ∧
    (∀ elems, string_value (.arr elems) = none) ∧
    (∀ fields, string_value (.obj fields) = none) ∧
    (∀ (p : EPath) (v : String) (t : Value) (val : Value),
      descend_to p t = some val → string_value val = none →
      eval_equals p v t = .bool false ∧ eval_contains p v t = .bool false) := by
  refine ⟨rfl, rfl, fun s => rfl, fun n => rfl, rfl, fun el => rfl, fun fs => rfl, ?_⟩
  intro p v t val hd hs
  constructor
  · unfold eval_equals
    rw [hd]
    simp [hs]
  · unfold eval_contains
    rw [hd]
    simp [hs]

/-- Witness for C5 at a concrete record whose path resolves to an
array (incoercible). -/
theorem string_value_coercion_spec_witness :
    eval_equals ⟨["k"]⟩ "x" (.obj [("k", .arr [.str "x"])]) = .bool false ∧
    eval_contains ⟨["k"]⟩ "x" (.obj [("k", .arr [.str "x"])]) = .bool false :=
  string_value_coercion_spec.2.2.2.2.2.2.2 ⟨["k"]⟩ "x"
    (.obj [("k", .arr [.str "x"])]) (.arr [.str "x"]) rfl rfl

/-- Claim C6: `And` scans left to right and answers `false` at the
first falsy operand no matter what follows, and `true` when every
operand is truthy; `Or` dually answers `true` at the first truthy
operand and `false` when every operand is falsy.  (Truthiness is the
source's `as_bool().unwrap_or(false)` on the operand's evaluation.) -/
theorem and_or_short_circuit :
    (∀ cs t, eval (.And cs) t = eval_and cs t ∧ eval (.Or cs) t = eval_or cs t) ∧
    (∀ (pre : List Exp) (c : Exp) (post : List Exp) (t : Value),
      (∀ e ∈ pre, (as_bool (eval e t)).getD false = true) →
      (as_bool (eval c t)).getD false = false →
      eval_and (pre ++ c :: post) t = .bool false) ∧
    (∀ (cs : List Exp) (t : Value),
      (∀ e ∈ cs, (as_bool (eval e t)).getD false = true) →
      eval_and cs t = .bool true) ∧
    (∀ (pre : List Exp) (c : Exp) (post : List Exp) (t : Value),
      (∀ e ∈ pre, (as_bool (eval e t)).getD false = false) →
      (as_bool (eval c t)).getD false = true →
      eval_or (pre ++ c :: post) t = .bool true) ∧
    (∀ (cs : List Exp) (t : Value),
      (∀ e ∈ cs, (as_bool (eval e t)).getD false = false) →
      eval_or cs t = .bool false) := by
  refine ⟨fun cs t => ⟨by rw [eval], by rw [eval]⟩, ?_, ?_, ?_, ?_⟩
  · intro pre c post t hpre hc
    induction pre with
    | nil => rw [List.nil_append, eval_and]; simp [hc]
    | cons p rest ih =>
      have hp := hpre p (by simp)
      rw [List.cons_append, eval_and]
      simp only [hp]
      simpa using ih fun e he => hpre e (by simp [he])
  · intro cs t h
    induction cs with
    | nil => rfl
    | cons c rest ih =>
      have hc := h c (by simp)
      rw [eval_and]
      simp only [hc]
      simpa using ih fun e he => h e (by simp [he])
  · intro pre c post t hpre hc
    induction pre with
    | nil => rw [List.nil_append, eval_or]; simp [hc]
    | cons p rest ih =>
      have hp := hpre p (by simp)
      rw [List.cons_append, eval_or]
      simp only [hp]
      simpa using ih fun e he => hpre e (by simp [he])
  · intro cs t h
    induction cs with
    | nil => rfl
    | cons c rest ih =>
      have hc := h c (by simp)
      rw [eval_or]
      simp only [hc]
      simpa using ih fun e he => h e (by simp [he])

/-- Witness for C6: a truthy prefix, a falsy operand, and a trailing
operand that is never reached. -/
theorem and_or_short_circuit_witness :
    eval_and ([.Exists ⟨["k"]⟩] ++ .Equals ⟨["k"]⟩ "other" :: [.Exists ⟨["zz"]⟩])
      (.obj [("k", .str "v")]) = .bool false :=
  and_or_short_circuit.2.1 [.Exists ⟨["k"]⟩] (.Equals ⟨["k"]⟩ "other")
    [.Exists ⟨["zz"]⟩] (.obj [("k", .str "v")]) (by decide) (by decide)

/-- Claim C8: the pipeline applies its predicates in declaration
order, rejects at the first predicate answering `false`, accepts only
when every predicate accepts, and the empty pipeline accepts every
record. -/
theorem pipeline_apply_spec :
    add_filters [] = .ok [] ∧
    (∀ t : Value, applyFilters [] t = .ok true) ∧
    (∀ (pre : List Pred) (f : Pred) (post : List Pred) (t : Value),
      (∀ g ∈ pre, g t = .ok true) → f t = .ok false →
      applyFilters (pre ++ f :: post) t = .ok false) ∧
    (∀ (fs : List Pred) (t : Value),
      (∀ g ∈ fs, g t = .ok true) → applyFilters fs t = .ok true) := by
  refine ⟨rfl, fun t => rfl, ?_, ?_⟩
  · intro pre f post t hpre hf
    induction pre with
    | nil => rw [List.nil_append, applyFilters]; simp [hf]
    | cons g rest ih =>
      have hg := hpre g (by simp)
      rw [List.cons_append, applyFilters]
      simp only [hg]
      simpa using ih fun g hgm => hpre g (by simp [hgm])
  · intro fs t h
    induction fs with
    | nil => rfl
    | cons g rest ih =>
      have hg := h g (by simp)
      rw [applyFilters]
      simp only [hg]
      simpa using ih fun g hgm => h g (by simp [hgm])

/-- Witness for C8: a two-predicate pipeline rejecting at the second
predicate. -/
theorem pipeline_apply_spec_witness :
    applyFilters ([jaxeFilter (.Exists ⟨["k"]⟩)] ++
        jaxeFilter (.Equals ⟨["k"]⟩ "other") :: []) (.obj [("k", .str "v")])
      = .ok false :=
  pipeline_apply_spec.2.2.1 [jaxeFilter (.Exists ⟨["k"]⟩)]
    (jaxeFilter (.Equals ⟨["k"]⟩ "other")) [] (.obj [("k", .str "v")])
    (by intro g hg; rw [List.mem_singleton] at hg; subst hg; rfl) rfl

/-! ## Claim theorems (parser side) -/

/-- Claim C3: `parse` succeeds exactly when the `exp` grammar rule
matches the whole source — failure means either no rule matched or a
structurally valid parse left unconsumed input; shown together with a
concrete pair where a single trailing space turns success into
failure. -/
theorem parse_requires_full_consumption :
    (∀ (s : String) (e : Exp),
      parse s = .ok e ↔ expP (s.length + 1) s.data = some ([], e)) ∧
    (parse "exists(k)").isOk = true ∧
    (parse "exists(k) ").isOk = false := by
  refine ⟨?_, rfl, rfl⟩
  intro s e
  unfold parse
  cases h : expP (s.length + 1) s.data with
  | none => simp
  | some r =>
    obtain ⟨rest, op⟩ := r
    by_cases hr : rest = []
    · subst hr
      simp
    · have hl : rest.length ≠ 0 := by simpa [List.length_eq_zero] using hr
      simp [hl, hr]

/-- Witness for C3 at a concrete source string. -/
theorem parse_requires_full_consumption_witness :
    parse "exists(k)" = .ok (.Exists ⟨["k"]⟩) ↔
      expP ("exists(k)".length + 1) "exists(k)".data = some ([], .Exists ⟨["k"]⟩) :=
  parse_requires_full_consumption.1 "exists(k)" (.Exists ⟨["k"]⟩)

/-! Round-trip facts about joining path segments with `/` and
re-splitting them inside `Value::pointer`. -/

theorem splitSlash_of_no_slash : ∀ (l : List Char), '/' ∉ l → splitSlash l = [l]
  | [], _ => rfl
  | c :: rest, h => by
    have hc : c ≠ '/' := fun hc => h (hc ▸ List.mem_cons_self c rest)
    have ih := splitSlash_of_no_slash rest fun hm => h (List.mem_cons_of_mem c hm)
    simp [splitSlash, hc, ih]

theorem splitSlash_append_slash : ∀ (l m : List Char), '/' ∉ l →
    splitSlash (l ++ '/' :: m) = l :: splitSlash m
  | [], m, _ => by simp [splitSlash]
  | c :: rest, m, h => by
    have hc : c ≠ '/' := fun hc => h (hc ▸ List.mem_cons_self c rest)
    have ih := splitSlash_append_slash rest m fun hm => h (List.mem_cons_of_mem c hm)
    simp [splitSlash, hc, ih]

theorem splitSlash_joinSlash : ∀ (segs : List String), segs ≠ [] →
    (∀ s ∈ segs, '/' ∉ s.data) → splitSlash (joinSlash segs) = segs.map String.data
  | [], hne, _ => absurd rfl hne
  | [s], _, h => by
    rw [joinSlash, splitSlash_of_no_slash s.data (h s (by simp))]
    rfl
  | s :: r :: rest, _, h => by
    have ih := splitSlash_joinSlash (r :: rest) (List.cons_ne_nil r rest)
      fun x hx => h x (List.mem_cons_of_mem s hx)
    rw [show joinSlash (s :: r :: rest) = s.data ++ '/' :: joinSlash (r :: rest) from rfl,
        splitSlash_append_slash s.data _ (h s (by simp)), ih]
    rfl

theorem replace2_of_not_mem (a b c : Char) :
    ∀ (t : List Char), a ∉ t → replace2 a b c t = t
  | [], _ => rfl
  | [_], _ => rfl
  | x :: y :: rest, h => by
    have hx : x ≠ a := fun hx => h (hx ▸ List.mem_cons_self x (y :: rest))
    have ih := replace2_of_not_mem a b c (y :: rest)
      fun hm => h (List.mem_cons_of_mem x hm)
    simp [replace2, hx, ih]

theorem unescapeTok_of_no_tilde (t : List Char) (h : '~' ∉ t) : unescapeTok t = t := by
  rw [unescapeTok, replace2_of_not_mem '~' '1' '/' t h, replace2_of_not_mem '~' '0' '~' t h]

/-- Claim C7: on tilde-free, slash-free segments (every parsed path is
of this shape), `descend_to` — built by joining the segments with `/`
into a hierarchical pointer — resolves the record by the plain
segment-wise fold that keys objects verbatim and indexes arrays by
base-10 unsigned parsing; and the spec's literal scenario
`mykey.0 == myval1` parses and evaluates to `true` against
`{"mykey": ["myval1", "myval2"]}`. -/
theorem descend_pointer_semantics :
    (∀ (segs : List String) (t : Value), segs ≠ [] →
      (∀ s ∈ segs, '/' ∉ s.data ∧ '~' ∉ s.data) →
      descend_to ⟨segs⟩ t = pointerGo (segs.map String.data) t) ∧
    parse "mykey.0 == myval1" = .ok (.Equals ⟨["mykey", "0"]⟩ "myval1") ∧
    eval (.Equals ⟨["mykey", "0"]⟩ "myval1")
      (.obj [("mykey", .arr [.str "myval1", .str "myval2"])]) = .bool true := by
  refine ⟨?_, rfl, rfl⟩
  intro segs t hne h
  rw [descend_to]
  rw [show pointer ('/' :: joinSlash segs) t
      = pointerGo (((splitSlash ('/' :: joinSlash segs)).drop 1).map unescapeTok) t
    from rfl]
  have h1 : splitSlash ('/' :: joinSlash segs) = [] :: splitSlash (joinSlash segs) := by
    simp [splitSlash]
  have h2 : splitSlash (joinSlash segs) = segs.map String.data :=
    splitSlash_joinSlash segs hne fun s hs => (h s hs).1
  rw [h1, List.drop_one, List.tail_cons, h2, List.map_map]
  have h5 : List.map (unescapeTok ∘ String.data) segs = List.map String.data segs :=
    List.map_congr_left fun s hs => unescapeTok_of_no_tilde s.data ((h s hs).2)
  rw [h5]

/-- Witness for C7 at the two-segment path of the literal scenario. -/
theorem descend_pointer_semantics_witness :
    descend_to ⟨["mykey", "0"]⟩ (.obj [("mykey", .arr [.str "myval1", .str "myval2"])])
      = pointerGo [['m','y','k','e','y'], ['0']]
          (.obj [("mykey", .arr [.str "myval1", .str "myval2"])]) :=
  descend_pointer_semantics.1 ["mykey", "0"]
    (.obj [("mykey", .arr [.str "myval1", .str "myval2"])]) (by decide) (by decide)

/-- Whitespace run before a `(` is skipped entirely by `multispace0`. -/
theorem multispace0_append (w t : List Char)
    (hw : ∀ c ∈ w, c = ' ' ∨ c = '\t' ∨ c = '\r' ∨ c = '\n') :
    multispace0 (w ++ '(' :: t) = '(' :: t := by
  induction w with
  | nil => rfl
  | cons c rest ih =>
    have hc := hw c (List.mem_cons_self c rest)
    have ih2 := ih fun x hx => hw x (List.mem_cons_of_mem c hx)
    rw [show (c :: rest) ++ '(' :: t = c :: (rest ++ '(' :: t) from rfl]
    rw [multispace0] at ih2 ⊢
    rw [List.dropWhile_cons]
    rcases hc with h | h | h | h <;> subst h <;> simpa using ih2

/-- Claim C9 counterexample: the source `not (k == v)` — with a space
between the keyword and the opening parenthesis — parses successfully,
contradicting the claim that a not-expression parses exactly when no
characters stand between `not` and `(`. -/
theorem not_adjacent_paren_counterexample :
    parse "not (k == v)" = .ok (.Not (.Equals ⟨["k"]⟩ "v")) := rfl

/-- Claim C9 as amended: the `not` form is the keyword `not`, an
optional run of whitespace (spaces, tabs, carriage returns, line
feeds), then the parenthesized expression; non-whitespace characters
between the keyword and `(` still fail to parse. -/
theorem not_allows_whitespace_before_paren :
    (∀ w : String, (∀ c ∈ w.data, c = ' ' ∨ c = '\t' ∨ c = '\r' ∨ c = '\n') →
      parse ("not" ++ w ++ "(k == v)") = .ok (.Not (.Equals ⟨["k"]⟩ "v"))) ∧
    (parse "not x(k == v)").isOk = false := by
  refine ⟨?_, rfl⟩
  intro w hw
  have hms : multispace0 (w.data ++ ['(', 'k', ' ', '=', '=', ' ', 'v', ')'])
      = '(' :: ['k', ' ', '=', '=', ' ', 'v', ')'] :=
    multispace0_append w.data ['k', ' ', '=', '=', ' ', 'v', ')'] hw
  have hnot : notStep (expP ("not" ++ w ++ "(k == v)").length)
      ('n' :: 'o' :: 't' :: (w.data ++ ['(', 'k', ' ', '=', '=', ' ', 'v', ')']))
      = some ([], .Not (.Equals ⟨["k"]⟩ "v")) := by
    show (match tag ['('] (multispace0 (w.data ++ ['(', 'k', ' ', '=', '=', ' ', 'v', ')'])) with
          | none => none
          | some (i2, _) =>
            match expP ("not" ++ w ++ "(k == v)").length i2 with
            | none => none
            | some (i3, e) =>
              match tag [')'] i3 with
              | none => none
              | some (i4, _) => some (i4, Exp.Not e))
        = some ([], Exp.Not (.Equals ⟨["k"]⟩ "v"))
    rw [hms]
    rfl
  have hor : orStep (expP ("not" ++ w ++ "(k == v)").length)
      ('n' :: 'o' :: 't' :: (w.data ++ ['(', 'k', ' ', '=', '=', ' ', 'v', ')'])) = none := rfl
  have hand : andStep (expP ("not" ++ w ++ "(k == v)").length)
      ('n' :: 'o' :: 't' :: (w.data ++ ['(', 'k', ' ', '=', '=', ' ', 'v', ')'])) = none := rfl
  have hexp : expP (("not" ++ w ++ "(k == v)").length + 1) ("not" ++ w ++ "(k == v)").data
      = some ([], .Not (.Equals ⟨["k"]⟩ "v")) := by
    show expStep (expP ("not" ++ w ++ "(k == v)").length)
        ('n' :: 'o' :: 't' :: (w.data ++ ['(', 'k', ' ', '=', '=', ' ', 'v', ')'])) = _
    unfold expStep
    rw [hor, hand, hnot]
  unfold parse
  rw [hexp]
  rfl

/-- Witness for the amended C9 at a two-space separator. -/
theorem not_allows_whitespace_before_paren_witness :
    parse ("not" ++ "  " ++ "(k == v)") = .ok (.Not (.Equals ⟨["k"]⟩ "v")) :=
  not_allows_whitespace_before_paren.1 "  " (by decide)
